import Mathlib

/-!
# Verification of the headlessui transition / dialog / focus-trap core

Shallow embedding of the repository's code:

* `Dialog` (part_000): escape-key handling, outside-click handling,
  `open`-prop validation, scroll lock.
* `useLabels` (label.ts): the label id registry.
* The transition engine, nested-transition coordinator and focus trap are
  only present in the repository through their tests; those parts are
  modelled from the specification (each such definition is marked
  `Modelled from the spec:`).

Elements of the DOM are identified by natural numbers; a container is the
finite set of element ids it contains.
-/

namespace HeadlessUI

/-! ## Dialog (src/unnamed/part_000) -/

/-- `enum DialogStates { Open, Closed }` from the dialog source. -/
inductive DialogStates
  | Open
  | Closed
deriving DecidableEq, Repr

/-- Keyboard key constants used by the dialog (`Keys` from keyboard.ts);
keys other than the ones the dialog matches are collapsed into `other`. -/
inductive Key
  | Escape
  | Tab
  | Space
  | Enter
  | other (s : String)
deriving DecidableEq, Repr

/-- `handleKeyDown` of the Dialog setup (part_000 lines 244–251).  Returns
`true` iff `api.close()` is invoked for the given keydown event.  The three
early returns of the source are kept in order: wrong key, dialog not open,
`containers.value.size > 1` (one entry is the dialog itself; more entries
mean other stacked elements sit on top). -/
def handleKeyDown (key : Key) (dialogState : DialogStates) (containersSize : Nat) : Bool :=
  if key ≠ Key.Escape then false
  else if dialogState ≠ DialogStates.Open then false
  else if containersSize > 1 then false
  else true

/-- `contains(containers, target)` from internal/dom-containers as the
dialog uses it: some registered container contains the target element. -/
def containsTarget (containers : List (Finset Nat)) (target : Nat) : Bool :=
  containers.any (fun c => target ∈ c)

/-- The `mousedown` window-event handler of the Dialog setup (part_000
lines 177–186).  Returns `true` iff `api.close()` is invoked.  Early
returns of the source, in order: dialog not open, `containers.value.size
!== 1`, target contained in the registered containers. -/
def handleMouseDown (dialogState : DialogStates) (containers : List (Finset Nat))
    (target : Nat) : Bool :=
  if dialogState ≠ DialogStates.Open then false
  else if containers.length ≠ 1 then false
  else if containsTarget containers target then false
  else true

/-- A runtime prop value as the dialog's validation distinguishes them:
a string, a boolean, or anything else (`typeof props.open !== 'boolean'`
only cares about the boolean case). -/
inductive PropValue
  | str (s : String)
  | boolean (b : Bool)
  | num (n : Int)
deriving DecidableEq, Repr

/-- The sentinel `Missing = 'DC8F892D-2EBD-447C-A4C8-A03058436FF4'` used as
the default of the `open` prop. -/
def Missing : String := "DC8F892D-2EBD-447C-A4C8-A03058436FF4"

/-- The default value of the `open` prop when the consumer does not supply
one (`open: { type: Boolean, default: Missing }`). -/
def openDefault : PropValue := PropValue.str Missing

/-- The `open`-prop validation at the top of the Dialog `setup` (part_000
lines 115–129): throw when the prop still equals the `Missing` sentinel,
then throw when the supplied value is not a boolean; otherwise setup
proceeds with the boolean. -/
def validateOpen (opn : PropValue) : Except String Bool :=
  if opn = PropValue.str Missing then
    Except.error "You forgot to provide an open prop to the Dialog."
  else
    match opn with
    | PropValue.boolean b => Except.ok b
    | _ => Except.error "You provided an open prop to the Dialog, but the value is not a boolean."

/-- The mutable style properties of `document.documentElement` as the
scroll lock sees them: the two properties it touches plus all the others. -/
structure DocumentElementStyle where
  overflow : String
  paddingRight : String
  other : List (String × String)
deriving DecidableEq, Repr

/-- The two style values captured by the scroll-lock `watchEffect` before
mutating them. -/
structure SavedStyle where
  overflow : String
  paddingRight : String
deriving DecidableEq, Repr

/-- Body of the scroll-lock `watchEffect` (part_000 lines 189–204) when the
dialog is open: capture the current `overflow` and `paddingRight`, set
`overflow` to `'hidden'` and `paddingRight` to the measured scrollbar width
in pixels.  Returns the mutated style and the captured values. -/
def scrollLockApply (style : DocumentElementStyle) (scrollbarWidth : Nat) :
    DocumentElementStyle × SavedStyle :=
  (⟨"hidden", toString scrollbarWidth ++ "px", style.other⟩,
   ⟨style.overflow, style.paddingRight⟩)

/-- The `onInvalidate` cleanup of the scroll-lock `watchEffect`: write the
captured `overflow` and `paddingRight` back. -/
def scrollLockRestore (style : DocumentElementStyle) (saved : SavedStyle) :
    DocumentElementStyle :=
  { style with overflow := saved.overflow, paddingRight := saved.paddingRight }

/-- The scroll-lock effect including its guard: when the dialog is not open
the effect returns before touching anything. -/
def scrollLockEffect (dialogState : DialogStates) (style : DocumentElementStyle)
    (scrollbarWidth : Nat) : DocumentElementStyle × Option SavedStyle :=
  if dialogState ≠ DialogStates.Open then (style, none)
  else
    let (mutated, saved) := scrollLockApply style scrollbarWidth
    (mutated, some saved)

/-! ## Label registry (label.ts) -/

/-- `register(value)` of `useLabels` (label.ts line 48): `labelIds.value.push(value)`. -/
def register (labelIds : List String) (value : String) : List String :=
  labelIds ++ [value]

/-- The unregister closure returned by `register` (label.ts lines 51–55):
`indexOf` the value, return when `-1`, otherwise `splice` that single index
out. -/
def unregister (labelIds : List String) (value : String) : List String :=
  match labelIds.indexOf? value with
  | none => labelIds
  | some idx => labelIds.eraseIdx idx

/-- The computed ref returned by `useLabels` (label.ts line 61):
`labelIds.value.length > 0 ? labelIds.value.join(' ') : undefined`. -/
def labelValue (labelIds : List String) : Option String :=
  if labelIds.length > 0 then some (String.intercalate " " labelIds) else none

/-! ## TransitionEngine (modelled from the spec)

The transition engine itself (transition.ts / the transition utils) is not
among the provided source files; only its test suite is.  The following
definitions are modelled from the specification, §4.1. -/

/-- Direction of a transition run (`Enter | Leave`). -/
inductive Direction
  | enter
  | leave
deriving DecidableEq, Repr

/-- The four lifecycle events of the transition engine. -/
inductive TransitionEvent
  | beforeEnter
  | afterEnter
  | beforeLeave
  | afterLeave
deriving DecidableEq, Repr

/-- The `before*` event of a direction. -/
def beforeEvent : Direction → TransitionEvent
  | Direction.enter => TransitionEvent.beforeEnter
  | Direction.leave => TransitionEvent.beforeLeave

/-- The `after*` event of a direction. -/
def afterEvent : Direction → TransitionEvent
  | Direction.enter => TransitionEvent.afterEnter
  | Direction.leave => TransitionEvent.afterLeave

/-- Modelled from the spec: the class configuration of one run of the
missing transition engine — the `base`, `from` and `to` class sets of the
active direction (spec §3 `classLists`). -/
structure TransitionClasses where
  base : Finset String
  fromClasses : Finset String
  toClasses : Finset String
deriving DecidableEq

/-- Phase of a single run: idle, `base`+`from` applied and waiting for the
next rendering opportunity, or waiting for the completion signal. -/
inductive EnginePhase
  | idle
  | appliedFrom
  | waitingCompletion
deriving DecidableEq, Repr

/-- Modelled from the spec: the state of the missing transition engine for
one target element — current phase, the active run (direction and class
configuration), the element's class set, and the lifecycle events emitted
so far in order. -/
structure EngineState where
  phase : EnginePhase
  run : Option (Direction × TransitionClasses)
  classes : Finset String
  events : List TransitionEvent
deriving DecidableEq

/-- The stimuli the engine reacts to: a `start(direction, classes)` call,
the next rendering opportunity, the browser's transition/animation
completion signal, and cancellation (a superseding start or boundary
destruction detaches the pending completion listener). -/
inductive EngineCommand
  | start (d : Direction) (c : TransitionClasses)
  | frame
  | completionSignal
  | cancel
deriving DecidableEq

/-- Modelled from the spec: one step of the missing transition engine
(spec §4.1 steps 1–6).  `start` synchronously applies `base` + `from` and
emits the `before*` event; the next frame removes `from` and adds `to`; the
completion signal strips all transition-related classes and emits the
`after*` event; `cancel` detaches the pending listener so a later
completion signal fires nothing for the superseded run. -/
def engineStep (s : EngineState) : EngineCommand → EngineState
  | EngineCommand.start d c =>
      { phase := EnginePhase.appliedFrom
        run := some (d, c)
        classes := s.classes ∪ c.base ∪ c.fromClasses
        events := s.events ++ [beforeEvent d] }
  | EngineCommand.frame =>
      match s.phase, s.run with
      | EnginePhase.appliedFrom, some (_, c) =>
          { s with
            phase := EnginePhase.waitingCompletion
            classes := s.classes \ c.fromClasses ∪ c.toClasses }
      | _, _ => s
  | EngineCommand.completionSignal =>
      match s.phase, s.run with
      | EnginePhase.waitingCompletion, some (d, c) =>
          { phase := EnginePhase.idle
            run := none
            classes := s.classes \ (c.base ∪ c.fromClasses ∪ c.toClasses)
            events := s.events ++ [afterEvent d] }
      | _, _ => s
  | EngineCommand.cancel =>
      { s with phase := EnginePhase.idle, run := none }

/-- Process a sequence of stimuli. -/
def engineRun (s : EngineState) (cmds : List EngineCommand) : EngineState :=
  cmds.foldl engineStep s

/-- The engine attached to an element whose class set is `classes`, before
any transition. -/
def initialState (classes : Finset String) : EngineState :=
  ⟨EnginePhase.idle, none, classes, []⟩

/-- A full (uncancelled) run: start, next frame, completion signal. -/
def fullRun (d : Direction) (c : TransitionClasses) : List EngineCommand :=
  [EngineCommand.start d c, EngineCommand.frame, EngineCommand.completionSignal]

/-! ## NestedTransitionCoordinator (modelled from the spec)

The coordinator (TransitionRoot/TransitionChild nesting machinery) is not
among the provided source files; only its test suite is.  Modelled from
spec §3 and §4.2. -/

/-- Modelled from the spec: the missing coordinator's busy-set — the ids of
currently busy children, plus whether the parent's own transition state is
non-idle. -/
structure Coordinator where
  busyChildren : Finset Nat
  selfBusy : Bool
deriving DecidableEq

/-- Parent is busy iff at least one child is busy or its own transition is
non-idle (spec §3). -/
def Coordinator.busy (co : Coordinator) : Bool :=
  co.selfBusy || decide (co.busyChildren ≠ ∅)

/-- `notifyBusy(childId, busy)`: insert or erase the child in the busy set
(idempotent by construction, as the spec requires). -/
def notifyBusy (co : Coordinator) (childId : Nat) (b : Bool) : Coordinator :=
  if b then { co with busyChildren := insert childId co.busyChildren }
  else { co with busyChildren := co.busyChildren.erase childId }

/-- Modelled from the spec: a leaving child with leave duration `d` is
still busy at time `t` iff its leave has not yet completed. -/
def childBusyAt (d t : Nat) : Bool :=
  decide (t < d)

/-- Modelled from the spec: a parent boundary whose own transition is idle
stays mounted at time `t` iff at least one child (given by its leave
duration) is still busy. -/
def parentMountedAt (durations : List Nat) (t : Nat) : Bool :=
  durations.any (fun d => childBusyAt d t)

/-! ## FocusTrapEngine (modelled from the spec)

The focus-trap implementation (use-focus-trap / focus-management) is not
among the provided source files; only its test suite is.  Modelled from
spec §3 and §4.3. -/

/-- Modelled from the spec: the focus state the missing trap maintains —
the browser's currently focused element and the last known valid
in-boundary element. -/
structure FocusTrapState where
  activeElement : Nat
  lastValid : Nat
deriving DecidableEq, Repr

/-- Modelled from the spec: the re-focus guard of the missing trap.  A
focus change targeting an element inside the boundary is accepted and
recorded; one targeting an element outside the boundary is immediately
reverted to the last known valid in-boundary element (spec §3 invariant,
§4.3 tab-cycling paragraph). -/
def onFocusChange (boundary : Finset Nat) (s : FocusTrapState) (target : Nat) :
    FocusTrapState :=
  if target ∈ boundary then ⟨target, target⟩
  else ⟨s.lastValid, s.lastValid⟩

/-- Process a sequence of focus-change attempts. -/
def processFocusEvents (boundary : Finset Nat) (s : FocusTrapState)
    (targets : List Nat) : FocusTrapState :=
  targets.foldl (onFocusChange boundary) s

/-- A focusable-element candidate inside the boundary: its id and whether
it carries the autofocus marker. -/
structure Candidate where
  id : Nat
  autofocus : Bool
deriving DecidableEq, Repr

/-- The activation failure of the focus trap. -/
inductive FocusTrapError
  | noFocusableElement
deriving DecidableEq, Repr

/-- Modelled from the spec: the initial-focus computation of the missing
trap's `activate` (spec §3 precedence, §4.3 failure mode): the explicit
initial-focus target when supplied, else the first candidate carrying the
autofocus marker, else the first focusable candidate in DOM order, and
`NoFocusableElementError` when the computed focusable set is empty and no
explicit target was supplied. -/
def activate (focusables : List Candidate) (initialFocus : Option Nat) :
    Except FocusTrapError Nat :=
  match initialFocus with
  | some e => Except.ok e
  | none =>
    match focusables.find? (fun c => c.autofocus) with
    | some c => Except.ok c.id
    | none =>
      match focusables with
      | [] => Except.error FocusTrapError.noFocusableElement
      | c :: _ => Except.ok c.id

/-! ## Theorems -/

/-- C6: For every Escape keydown delivered to an open Dialog, the close
handler is invoked only when the dialog is the topmost stacked region
(its container set holds no entry besides itself, i.e. size ≤ 1): with two
nested dialogs the outer one's container set has size 2 so only the inner
(size 1) closes, and a closed dialog never reacts to Escape. -/
theorem dialog_escape_closes_topmost_only :
    (∀ key s n, handleKeyDown key s n = true ↔
      (key = Key.Escape ∧ s = DialogStates.Open ∧ n ≤ 1)) ∧
    handleKeyDown Key.Escape DialogStates.Open 2 = false ∧
    handleKeyDown Key.Escape DialogStates.Open 1 = true ∧
    (∀ key n, handleKeyDown key DialogStates.Closed n = false) := by
  refine ⟨fun key s n => ?_, by decide, by decide, fun key n => ?_⟩
  · unfold handleKeyDown
    split_ifs with h1 h2 h3 <;> simp_all
  · unfold handleKeyDown
    split_ifs <;> simp_all

/-- C7: The Dialog's outside-click (`mousedown`) handler invokes `close`
iff the dialog is open, exactly one container is registered, and the event
target is not contained in that container; with zero or several containers,
or a target inside the container, it never closes. -/
theorem dialog_outside_click_close_iff (s : DialogStates)
    (containers : List (Finset Nat)) (target : Nat) :
    handleMouseDown s containers target = true ↔
      (s = DialogStates.Open ∧ ∃ c, containers = [c] ∧ target ∉ c) := by
  unfold handleMouseDown containsTarget
  split_ifs with h1 h2 h3
  · simp_all
  · simp only [Bool.false_eq_true, false_iff]
    rintro ⟨-, c, rfl, -⟩
    simp at h2
  · simp only [Bool.false_eq_true, false_iff]
    rintro ⟨-, c, rfl, hc⟩
    simp [hc] at h3
  · rw [ne_eq, not_not] at h1
    rw [ne_eq, not_not, List.length_eq_one] at h2
    obtain ⟨c, rfl⟩ := h2
    simp_all

/-- C8: Constructing a Dialog without the `open` prop (so it still holds
the `Missing` sentinel default), or with a non-boolean `open` value, makes
the setup validation throw; with a boolean value it succeeds with exactly
that boolean. -/
theorem dialog_open_prop_validation :
    (∃ e, validateOpen openDefault = Except.error e) ∧
    (∀ b, validateOpen (PropValue.boolean b) = Except.ok b) ∧
    (∀ v, (∃ b, validateOpen v = Except.ok b) ↔ ∃ b, v = PropValue.boolean b) := by
  refine ⟨⟨_, rfl⟩, fun b => rfl, fun v => ?_⟩
  rcases v with s | b | n
  · simp only [validateOpen]
    split_ifs <;> simp
  · simp [validateOpen]
  · simp [validateOpen]

/-- C9: While open, the Dialog's scroll lock sets
`document.documentElement.style.overflow` to `'hidden'` and
`style.paddingRight` to the measured scrollbar width in pixels, leaves all
other documentElement style properties untouched, and its invalidation
restores the style to exactly what it was before opening; when the dialog
is not open, the effect changes nothing. -/
theorem dialog_scroll_lock_restores_style (style : DocumentElementStyle) (w : Nat) :
    (scrollLockApply style w).1.overflow = "hidden" ∧
    (scrollLockApply style w).1.paddingRight = toString w ++ "px" ∧
    (scrollLockApply style w).1.other = style.other ∧
    scrollLockRestore (scrollLockApply style w).1 (scrollLockApply style w).2 = style ∧
    (∀ s, s ≠ DialogStates.Open → scrollLockEffect s style w = (style, none)) := by
  refine ⟨rfl, rfl, rfl, rfl, fun s hs => ?_⟩
  simp [scrollLockEffect, hs]

/-- The unregister closure (indexOf + splice) removes exactly the first
occurrence of its value: it coincides with `List.erase`. -/
theorem unregister_eq_erase (ids : List String) (value : String) :
    unregister ids value = ids.erase value := by
  induction ids with
  | nil => rfl
  | cons x xs ih =>
    unfold unregister at ih ⊢
    rw [List.indexOf?_cons, List.erase_cons]
    by_cases h : (x == value) = true
    · simp [h]
    · simp only [h, if_false]
      cases hx : List.indexOf? value xs with
      | none =>
          rw [hx] at ih
          simp [← ih]
      | some i =>
          rw [hx] at ih
          simp [List.eraseIdx_cons_succ, ← ih]

/-- C10 (counterexample): when the same id is registered twice, invoking
the unregister closure a second time is not a no-op — it removes the other
occurrence as well, so the registry changes on the second call. -/
theorem useLabels_double_unregister_not_noop :
    ¬ (unregister (unregister (register (register [] "x") "x") "x") "x"
        = unregister (register (register [] "x") "x") "x") := by
  decide

/-- C10 (amended): the computed label id is `undefined` exactly when no
label is registered and otherwise joins the registered ids with single
spaces in registration order; unregistering removes exactly the first
occurrence of the id (a no-op when the id is absent), and — provided the
id is registered at most once, as is always the case in practice since ids
are unique — invoking the unregister closure a second time is a no-op. -/
theorem useLabels_registry_spec (ids : List String) (value : String)
    (h : ids.count value ≤ 1) :
    (labelValue ids = none ↔ ids = []) ∧
    (ids ≠ [] → labelValue ids = some (String.intercalate " " ids)) ∧
    unregister ids value = ids.erase value ∧
    (value ∉ ids → unregister ids value = ids) ∧
    unregister (unregister ids value) value = unregister ids value := by
  refine ⟨?_, ?_, unregister_eq_erase ids value, ?_, ?_⟩
  · cases ids <;> simp [labelValue]
  · intro hne
    cases ids with
    | nil => exact absurd rfl hne
    | cons x xs => simp [labelValue]
  · intro hmem
    rw [unregister_eq_erase, List.erase_of_not_mem hmem]
  · rw [unregister_eq_erase, unregister_eq_erase]
    have hz : (ids.erase value).count value = 0 := by
      rw [List.count_erase_self]
      omega
    rw [List.erase_of_not_mem (List.count_eq_zero.mp hz)]

/-- C10 (witness): the amended registry theorem at the concrete registry
`["a", "b"]` and id `"a"`. -/
theorem useLabels_registry_spec_witness :
    (["a", "b"] : List String).count "a" ≤ 1 ∧
    ((labelValue ["a", "b"] = none ↔ (["a", "b"] : List String) = []) ∧
     ((["a", "b"] : List String) ≠ [] →
        labelValue ["a", "b"] = some (String.intercalate " " ["a", "b"])) ∧
     unregister ["a", "b"] "a" = (["a", "b"] : List String).erase "a" ∧
     ("a" ∉ (["a", "b"] : List String) → unregister ["a", "b"] "a" = ["a", "b"]) ∧
     unregister (unregister ["a", "b"] "a") "a" = unregister ["a", "b"] "a") :=
  ⟨by decide, useLabels_registry_spec ["a", "b"] "a" (by decide)⟩

/-- C1: For a single transition run, the class mutations happen in strict
three-step order: `start` applies base + from synchronously, the next
rendering opportunity removes the from classes and adds the to classes,
and completion strips every transition-related class, ending idle with no
enter/leave/from/to class on the element. -/
theorem transition_class_mutation_order (d : Direction) (c : TransitionClasses)
    (init : Finset String) :
    (engineRun (initialState init) [EngineCommand.start d c]).classes
        = init ∪ c.base ∪ c.fromClasses ∧
    (engineRun (initialState init)
        [EngineCommand.start d c, EngineCommand.frame]).classes
        = (init ∪ c.base ∪ c.fromClasses) \ c.fromClasses ∪ c.toClasses ∧
    (engineRun (initialState init) (fullRun d c)).phase = EnginePhase.idle ∧
    (engineRun (initialState init) (fullRun d c)).classes
        ∩ (c.base ∪ c.fromClasses ∪ c.toClasses) = ∅ := by
  refine ⟨rfl, rfl, rfl, ?_⟩
  have hcl : (engineRun (initialState init) (fullRun d c)).classes
      = ((init ∪ c.base ∪ c.fromClasses) \ c.fromClasses ∪ c.toClasses)
          \ (c.base ∪ c.fromClasses ∪ c.toClasses) := rfl
  rw [hcl]
  exact Finset.sdiff_inter_self _ _

/-- C2: A full (uncancelled) run emits exactly its `before*` then its
`after*` event, once each; a run cancelled before completing emits no
`after*` event, and none at all if it had not yet started. -/
theorem transition_events_once_and_ordered (d : Direction) (c : TransitionClasses)
    (init : Finset String) :
    (engineRun (initialState init) (fullRun d c)).events
        = [beforeEvent d, afterEvent d] ∧
    ((engineRun (initialState init) (fullRun d c)).events).count (beforeEvent d) = 1 ∧
    ((engineRun (initialState init) (fullRun d c)).events).count (afterEvent d) = 1 ∧
    (engineRun (initialState init)
        [EngineCommand.start d c, EngineCommand.cancel,
         EngineCommand.completionSignal]).events = [beforeEvent d] ∧
    (engineRun (initialState init)
        [EngineCommand.start d c, EngineCommand.frame, EngineCommand.cancel,
         EngineCommand.completionSignal]).events = [beforeEvent d] ∧
    (engineRun (initialState init)
        [EngineCommand.cancel, EngineCommand.completionSignal]).events = [] := by
  refine ⟨rfl, ?_, ?_, rfl, rfl, rfl⟩ <;> cases d <;> rfl

/-- C3: A parent boundary whose own transition is idle stays mounted
exactly while at least one child is still busy leaving; with a fast
(50 ms) and a slow (150 ms) leaving child it is still mounted when the
fast child finishes at t = 50 and unmounts exactly when the slow child
completes at t = 150, matching the coordinator's busy-set semantics. -/
theorem nested_parent_unmounts_after_slowest :
    (∀ co : Coordinator, co.busy = false ↔
      (co.selfBusy = false ∧ co.busyChildren = ∅)) ∧
    (notifyBusy ⟨{0, 1}, false⟩ 0 false).busy = true ∧
    (notifyBusy (notifyBusy ⟨{0, 1}, false⟩ 0 false) 1 false).busy = false ∧
    (∀ ds t, parentMountedAt ds t = true ↔ ∃ d ∈ ds, t < d) ∧
    parentMountedAt [50, 150] 50 = true ∧
    childBusyAt 50 50 = false ∧
    childBusyAt 150 50 = true ∧
    (∀ t, parentMountedAt [50, 150] t = false ↔ 150 ≤ t) := by
  refine ⟨fun co => ?_, by decide, by decide, fun ds t => ?_, by decide, by decide,
    by decide, fun t => ?_⟩
  · simp [Coordinator.busy]
  · simp [parentMountedAt, childBusyAt, List.any_eq_true]
  · simp [parentMountedAt, childBusyAt]
    omega

/-- Every focus-change attempt keeps both the active element and the last
valid element of the trap inside the boundary, provided they start there. -/
theorem processFocusEvents_stays_in_boundary (boundary : Finset Nat)
    (targets : List Nat) (s : FocusTrapState)
    (ha : s.activeElement ∈ boundary) (hl : s.lastValid ∈ boundary) :
    (processFocusEvents boundary s targets).activeElement ∈ boundary ∧
    (processFocusEvents boundary s targets).lastValid ∈ boundary := by
  induction targets generalizing s with
  | nil => exact ⟨ha, hl⟩
  | cons t ts ih =>
    unfold processFocusEvents at ih ⊢
    rw [List.foldl_cons]
    refine ih _ ?_ ?_ <;> unfold onFocusChange <;> split_ifs with h
    · exact h
    · exact hl
    · exact h
    · exact hl

/-- C4: While the trap is active, the focused element is always inside the
boundary: starting from any in-boundary state, after any sequence of focus
changes (keyboard or programmatic, targeting arbitrary elements) the active
element is still in the boundary, and a single focus attempt targeting an
element outside the boundary is immediately redirected to the last valid
in-boundary element. -/
theorem focus_trap_focus_never_escapes (boundary : Finset Nat) (s : FocusTrapState)
    (targets : List Nat) (ha : s.activeElement ∈ boundary)
    (hl : s.lastValid ∈ boundary) :
    (processFocusEvents boundary s targets).activeElement ∈ boundary ∧
    (∀ t, t ∉ boundary →
        onFocusChange boundary s t = ⟨s.lastValid, s.lastValid⟩) := by
  refine ⟨(processFocusEvents_stays_in_boundary boundary targets s ha hl).1,
    fun t ht => ?_⟩
  unfold onFocusChange
  rw [if_neg ht]

/-- C4 (witness): a trap over boundary `{1, 2, 3}` starting focused on `1`,
hit by focus attempts on `5` (outside), `2` (inside) and `7` (outside),
keeps focus inside the boundary throughout. -/
theorem focus_trap_focus_never_escapes_witness :
    ((1 : Nat) ∈ ({1, 2, 3} : Finset Nat)) ∧
    ((processFocusEvents {1, 2, 3} ⟨1, 1⟩ [5, 2, 7]).activeElement
        ∈ ({1, 2, 3} : Finset Nat) ∧
     (∀ t, t ∉ ({1, 2, 3} : Finset Nat) →
        onFocusChange {1, 2, 3} ⟨1, 1⟩ t = ⟨1, 1⟩)) :=
  ⟨by decide, focus_trap_focus_never_escapes {1, 2, 3} ⟨1, 1⟩ [5, 2, 7]
    (by decide) (by decide)⟩

/-- C5: Activation fails with `NoFocusableElementError` exactly when the
focusable set is empty and no explicit initial-focus target was supplied;
an explicit target always activates with that target, and a non-empty
focusable set always activates with some element. -/
theorem focus_trap_activate_error_iff (focusables : List Candidate)
    (initialFocus : Option Nat) :
    (activate focusables initialFocus
        = Except.error FocusTrapError.noFocusableElement ↔
      (focusables = [] ∧ initialFocus = none)) ∧
    (∀ x, initialFocus = some x →
        activate focusables initialFocus = Except.ok x) ∧
    (focusables ≠ [] → ∃ x, activate focusables initialFocus = Except.ok x) := by
  rcases initialFocus with _ | x
  · rcases focusables with _ | ⟨c, rest⟩
    · exact ⟨by simp [activate], by simp, by simp⟩
    · refine ⟨?_, by simp, fun _ => ?_⟩
      · simp only [activate]
        cases hf : List.find? (fun c => c.autofocus) (c :: rest) <;> simp [hf]
      · simp only [activate]
        cases hf : List.find? (fun c => c.autofocus) (c :: rest) with
        | none => exact ⟨c.id, rfl⟩
        | some a => exact ⟨a.id, rfl⟩
  · refine ⟨by simp [activate], fun y hy => ?_, fun _ => ⟨x, by simp [activate]⟩⟩
    cases hy
    simp [activate]

end HeadlessUI
